import Mathlib

/-!
Verification of the sample-size calculator (`sample_size_calculator_packages/core.py`).

The Python source is shallowly embedded here.  Input parameters are exact
rationals (`ℚ`); the numeric value computed by the formula lives in `ℝ`
because it involves `math.sqrt` (modelled by `Real.sqrt`) and the external
standard-normal quantile `scipy.stats.norm.ppf`, which is modelled as an
abstract parameter `PhiInv : ℚ → ℝ` (it is only ever applied to rational
combinations of the rational inputs).  Fallible code is modelled with
`Except`: Python `ValueError` raised by validation becomes the
invalid-parameter constructors, and Python `ZeroDivisionError` becomes
`CalcError.divisionByZero`.
-/

namespace SampleSizeCalculator

/-- The error kinds the Python functions can raise: one `ValueError` per
validated field (in source order), the `ValueError` for a derived treatment
rate `p2 ≥ 1`, and `ZeroDivisionError`. -/
inductive CalcError where
  | invalidP1
  | invalidMde
  | invalidAlpha
  | invalidPower
  | invalidBonferroni
  | invalidSplit
  | invalidP2
  | divisionByZero
deriving DecidableEq

/-- `ValueError`s raised by validation (what the specification calls
`InvalidParameterError`), as opposed to `ZeroDivisionError`. -/
def CalcError.isInvalidParameter : CalcError → Bool
  | .divisionByZero => false
  | _ => true

/-- `p2 = p1 * (1 + relative_mde)` from the source. -/
def treatment_rate (p1 relative_mde : ℚ) : ℚ := p1 * (1 + relative_mde)

/-- `p_bar = (p1 + p2) / 2` from the source. -/
def p_bar (p1 relative_mde : ℚ) : ℚ := (p1 + treatment_rate p1 relative_mde) / 2

/-- Argument of the first `math.sqrt` in the source: `2 * p_bar * (1 - p_bar)`. -/
def null_variance_term (p1 relative_mde : ℚ) : ℚ :=
  2 * p_bar p1 relative_mde * (1 - p_bar p1 relative_mde)

/-- Argument of the second `math.sqrt` in the source:
`p1 * (1 - p1) + p2 * (1 - p2)`. -/
def alt_variance_term (p1 relative_mde : ℚ) : ℚ :=
  p1 * (1 - p1) + treatment_rate p1 relative_mde * (1 - treatment_rate p1 relative_mde)

/-- `adjusted_alpha = alpha / bonferroni_correction` from the source. -/
def adjusted_alpha (alpha : ℚ) (bonferroni_correction : ℤ) : ℚ :=
  alpha / (bonferroni_correction : ℚ)

/-- The argument handed to `norm.ppf` for the critical value `z_alpha`:
`1 - adjusted_alpha / 2` for a two-tailed test, else `1 - adjusted_alpha`. -/
def z_alpha_arg (alpha : ℚ) (bonferroni_correction : ℤ) (two_tailed : Bool) : ℚ :=
  if two_tailed then 1 - adjusted_alpha alpha bonferroni_correction / 2
  else 1 - adjusted_alpha alpha bonferroni_correction

/-- The factor `(1 + k) / (4 * k)` with `k = (1 - split_ratio) / split_ratio`
applied by the source when `split_ratio != 0.5`. -/
def split_adjust (split_ratio : ℚ) : ℚ :=
  (1 + (1 - split_ratio) / split_ratio) / (4 * ((1 - split_ratio) / split_ratio))

/-- The equal-group sample size of the source (the expression assigned to `n`
before the unequal-group correction):
`(z_alpha * sqrt(2*p_bar*(1-p_bar)) + z_power * sqrt(p1*(1-p1)+p2*(1-p2)))^2
 / (p2 - p1)^2`. -/
noncomputable def n_equal (PhiInv : ℚ → ℝ) (p1 relative_mde alpha power : ℚ)
    (two_tailed : Bool) (bonferroni_correction : ℤ) : ℝ :=
  (PhiInv (z_alpha_arg alpha bonferroni_correction two_tailed)
        * Real.sqrt (null_variance_term p1 relative_mde : ℝ)
      + PhiInv power * Real.sqrt (alt_variance_term p1 relative_mde : ℝ)) ^ 2
    / ((treatment_rate p1 relative_mde - p1 : ℚ) : ℝ) ^ 2

/-- The value of `n` after the source's unequal-group correction branch
(`if split_ratio != 0.5: n = n * (1 + k) / (4 * k)`). -/
noncomputable def n_scaled (PhiInv : ℚ → ℝ) (p1 relative_mde alpha power : ℚ)
    (two_tailed : Bool) (bonferroni_correction : ℤ) (split_ratio : ℚ) : ℝ :=
  if split_ratio = 1/2 then
    n_equal PhiInv p1 relative_mde alpha power two_tailed bonferroni_correction
  else
    n_equal PhiInv p1 relative_mde alpha power two_tailed bonferroni_correction
      * ((split_adjust split_ratio : ℚ) : ℝ)

/-- The integer the source returns on success: `math.ceil(n)`. -/
noncomputable def requiredN (PhiInv : ℚ → ℝ) (p1 relative_mde alpha power : ℚ)
    (two_tailed : Bool) (bonferroni_correction : ℤ) (split_ratio : ℚ) : ℤ :=
  ⌈n_scaled PhiInv p1 relative_mde alpha power two_tailed bonferroni_correction split_ratio⌉

/-- `_validate_inputs` from the source: the six checks, in source order,
reporting the first violated one. -/
def validate_inputs (p1 relative_mde alpha power : ℚ) (bonferroni_correction : ℤ)
    (split_ratio : ℚ) : Option CalcError :=
  if ¬(0 < p1 ∧ p1 < 1) then some .invalidP1
  else if ¬(-1 < relative_mde ∧ relative_mde < 1) then some .invalidMde
  else if ¬(0 < alpha ∧ alpha < 1) then some .invalidAlpha
  else if ¬(0 < power ∧ power < 1) then some .invalidPower
  else if bonferroni_correction < 1 then some .invalidBonferroni
  else if ¬(0 < split_ratio ∧ split_ratio < 1) then some .invalidSplit
  else none

/-- `calculate_sample_size_relative` from the source: validate, reject
`p2 >= 1`, then evaluate the formula.  The division by `(p2 - p1) ** 2`
raises `ZeroDivisionError` in Python when that square is zero, which the
embedding surfaces as `CalcError.divisionByZero` at the point the division
is reached. -/
noncomputable def calculate_sample_size_relative (PhiInv : ℚ → ℝ)
    (p1 relative_mde alpha power : ℚ) (two_tailed : Bool)
    (bonferroni_correction : ℤ) (split_ratio : ℚ) : Except CalcError ℤ :=
  match validate_inputs p1 relative_mde alpha power bonferroni_correction split_ratio with
  | some e => .error e
  | none =>
    if 1 ≤ treatment_rate p1 relative_mde then .error .invalidP2
    else if (treatment_rate p1 relative_mde - p1) ^ 2 = 0 then .error .divisionByZero
    else .ok (requiredN PhiInv p1 relative_mde alpha power two_tailed
        bonferroni_correction split_ratio)

/-- `calculate_sample_size_absolute` from the source: converts to a relative
MDE via `relative_mde = absolute_mde / p1` (a Python division that raises
`ZeroDivisionError` when `p1 = 0`, before any validation) and delegates. -/
noncomputable def calculate_sample_size_absolute (PhiInv : ℚ → ℝ)
    (p1 absolute_mde alpha power : ℚ) (two_tailed : Bool)
    (bonferroni_correction : ℤ) (split_ratio : ℚ) : Except CalcError ℤ :=
  if p1 = 0 then .error .divisionByZero
  else calculate_sample_size_relative PhiInv p1 (absolute_mde / p1) alpha power
    two_tailed bonferroni_correction split_ratio

/-- A concrete stand-in for scipy's `norm.ppf`, used in counterexamples: a
monotone step function that agrees with the standard-normal quantile to about
`1e-4` at every point where a counterexample samples it
(`Φ⁻¹(0.01) ≈ -2.32635`, `Φ⁻¹(0.55) ≈ 0.12566`, `Φ⁻¹(0.775) ≈ 0.75542`,
`Φ⁻¹(0.8) ≈ 0.84162`, `Φ⁻¹(0.975) ≈ 1.95996`). -/
noncomputable def phiInvStd (q : ℚ) : ℝ :=
  if q ≤ 1/100 then -23263/10000
  else if q ≤ 55/100 then 1257/10000
  else if q ≤ 775/1000 then 7554/10000
  else if q ≤ 8/10 then 8416/10000
  else if q ≤ 975/1000 then 196/100
  else 3

theorem phiInvStd_mono : ∀ a b : ℚ, a ≤ b → phiInvStd a ≤ phiInvStd b := by
  intro a b hab
  unfold phiInvStd
  split_ifs <;> (try simp_all only [not_le]) <;> linarith

theorem validate_inputs_eq_none {p1 relative_mde alpha power : ℚ}
    {bonferroni_correction : ℤ} {split_ratio : ℚ}
    (h1 : 0 < p1) (h2 : p1 < 1) (h3 : -1 < relative_mde) (h4 : relative_mde < 1)
    (h5 : 0 < alpha) (h6 : alpha < 1) (h7 : 0 < power) (h8 : power < 1)
    (h9 : 1 ≤ bonferroni_correction) (h10 : 0 < split_ratio) (h11 : split_ratio < 1) :
    validate_inputs p1 relative_mde alpha power bonferroni_correction split_ratio = none := by
  simp [validate_inputs, h1, h2, h3, h4, h5, h6, h7, h8, h10, h11, not_lt.mpr h9]

theorem calculate_relative_ok (PhiInv : ℚ → ℝ) {p1 relative_mde alpha power : ℚ}
    {bonferroni_correction : ℤ} {split_ratio : ℚ} (two_tailed : Bool)
    (h1 : 0 < p1) (h2 : p1 < 1) (h3 : -1 < relative_mde) (h4 : relative_mde < 1)
    (h5 : 0 < alpha) (h6 : alpha < 1) (h7 : 0 < power) (h8 : power < 1)
    (h9 : 1 ≤ bonferroni_correction) (h10 : 0 < split_ratio) (h11 : split_ratio < 1)
    (h12 : treatment_rate p1 relative_mde < 1) (h13 : relative_mde ≠ 0) :
    calculate_sample_size_relative PhiInv p1 relative_mde alpha power two_tailed
        bonferroni_correction split_ratio
      = .ok (requiredN PhiInv p1 relative_mde alpha power two_tailed
        bonferroni_correction split_ratio) := by
  unfold calculate_sample_size_relative
  rw [validate_inputs_eq_none h1 h2 h3 h4 h5 h6 h7 h8 h9 h10 h11]
  have hd : treatment_rate p1 relative_mde - p1 = p1 * relative_mde := by
    unfold treatment_rate; ring
  have hne : (treatment_rate p1 relative_mde - p1) ^ 2 ≠ 0 := by
    rw [hd]
    exact pow_ne_zero 2 (mul_ne_zero (ne_of_gt h1) h13)
  rw [if_neg (not_le.mpr h12), if_neg hne]

theorem n_equal_nonneg (PhiInv : ℚ → ℝ) (p1 relative_mde alpha power : ℚ)
    (two_tailed : Bool) (bonferroni_correction : ℤ) :
    0 ≤ n_equal PhiInv p1 relative_mde alpha power two_tailed bonferroni_correction :=
  div_nonneg (sq_nonneg _) (sq_nonneg _)

theorem split_adjust_nonneg {split_ratio : ℚ} (h10 : 0 < split_ratio)
    (h11 : split_ratio < 1) : 0 ≤ split_adjust split_ratio := by
  unfold split_adjust
  have hk : 0 < (1 - split_ratio) / split_ratio := div_pos (by linarith) h10
  positivity

theorem requiredN_nonneg (PhiInv : ℚ → ℝ) (p1 relative_mde alpha power : ℚ)
    (two_tailed : Bool) (bonferroni_correction : ℤ) {split_ratio : ℚ}
    (h10 : 0 < split_ratio) (h11 : split_ratio < 1) :
    0 ≤ requiredN PhiInv p1 relative_mde alpha power two_tailed
      bonferroni_correction split_ratio := by
  apply Int.ceil_nonneg
  unfold n_scaled
  split_ifs
  · exact n_equal_nonneg ..
  · exact mul_nonneg (n_equal_nonneg ..)
      (by exact_mod_cast split_adjust_nonneg h10 h11)

/-- The specification's equal-group sample size (§4.1 steps 1–4 and 6),
transcribed from the spec's words, independently of the code-side
definitions: `n = ceil(((z_alpha·√(2·p̄·(1-p̄)) + z_power·√(p1(1-p1)+p2(1-p2)))²)
/ (p2-p1)²)` with `p2 = p1·(1+relative_mde)`, `p̄ = (p1+p2)/2`,
`z_alpha = Φ⁻¹(1 - (α/m)/2)` for two-sided tests (`Φ⁻¹(1 - α/m)` one-sided,
`m` the comparison count) and `z_power = Φ⁻¹(power)`. -/
noncomputable def specBaseRequiredN (PhiInv : ℚ → ℝ) (p1 relative_mde alpha power : ℚ)
    (two_tailed : Bool) (bonferroni_correction : ℤ) : ℤ :=
  ⌈(PhiInv (if two_tailed then 1 - alpha / (bonferroni_correction : ℚ) / 2
        else 1 - alpha / (bonferroni_correction : ℚ))
        * Real.sqrt ((2 * ((p1 + p1 * (1 + relative_mde)) / 2)
            * (1 - (p1 + p1 * (1 + relative_mde)) / 2) : ℚ) : ℝ)
      + PhiInv power * Real.sqrt ((p1 * (1 - p1)
          + p1 * (1 + relative_mde) * (1 - p1 * (1 + relative_mde)) : ℚ) : ℝ)) ^ 2
    / ((p1 * (1 + relative_mde) - p1 : ℚ) : ℝ) ^ 2⌉

theorem requiredN_half_eq (PhiInv : ℚ → ℝ) (p1 relative_mde alpha power : ℚ)
    (two_tailed : Bool) (bonferroni_correction : ℤ) :
    requiredN PhiInv p1 relative_mde alpha power two_tailed bonferroni_correction (1/2)
      = specBaseRequiredN PhiInv p1 relative_mde alpha power two_tailed
        bonferroni_correction := by
  unfold requiredN n_scaled n_equal z_alpha_arg adjusted_alpha null_variance_term
    alt_variance_term p_bar treatment_rate specBaseRequiredN
  rw [if_pos rfl]

/-- Modelled from the spec: the repository's core returns only `required_n`
(`math.ceil(n)`); the `SampleSizeResult.confidence_interval` described in
spec §3 and §4.1 step 7 is absent from `src`.  Following the spec's words it
is a band of some nonnegative half-width around `n`, symmetric before
clamping, reported as `(max(n - width, 0), n + width)`. -/
def confidence_interval (n width : ℤ) : ℤ × ℤ := (max (n - width) 0, n + width)

theorem validate_inputs_none_elim {p1 relative_mde alpha power : ℚ}
    {bonferroni_correction : ℤ} {split_ratio : ℚ}
    (h : validate_inputs p1 relative_mde alpha power bonferroni_correction split_ratio
      = none) :
    (0 < p1 ∧ p1 < 1) ∧ (-1 < relative_mde ∧ relative_mde < 1)
      ∧ (0 < alpha ∧ alpha < 1) ∧ (0 < power ∧ power < 1)
      ∧ 1 ≤ bonferroni_correction ∧ (0 < split_ratio ∧ split_ratio < 1) := by
  unfold validate_inputs at h
  split_ifs at h with a1 a2 a3 a4 a5 a6
  simp only [not_not, not_lt] at a1 a2 a3 a4 a5 a6
  exact ⟨a1, a2, a3, a4, a5, a6⟩

theorem error_isInvalid_of_mde_ne_zero (PhiInv : ℚ → ℝ)
    {p1 relative_mde : ℚ} (alpha power : ℚ) (two_tailed : Bool)
    (bonferroni_correction : ℤ) (split_ratio : ℚ) (hm : relative_mde ≠ 0) :
    ∀ e, calculate_sample_size_relative PhiInv p1 relative_mde alpha power two_tailed
        bonferroni_correction split_ratio = .error e →
      e.isInvalidParameter = true := by
  intro e he
  unfold calculate_sample_size_relative at he
  rcases hval : validate_inputs p1 relative_mde alpha power bonferroni_correction
      split_ratio with _ | e0
  · rw [hval] at he
    have hp1 : 0 < p1 := (validate_inputs_none_elim hval).1.1
    have hd : treatment_rate p1 relative_mde - p1 = p1 * relative_mde := by
      unfold treatment_rate; ring
    split_ifs at he with htr hdz <;> first
      | (cases he; rfl)
      | (exfalso; rw [hd] at hdz
         exact pow_ne_zero 2 (mul_ne_zero (ne_of_gt hp1) hm) hdz)
  · rw [hval] at he
    cases he
    unfold validate_inputs at hval
    split_ifs at hval <;> (cases hval; rfl)

/-- Claim C3 (amended): `InvalidParameterError` (a validation `ValueError`) is
the only error kind, except for division by zero: on the relative entry point
a `ZeroDivisionError` occurs exactly when `relative_mde = 0` survives
validation (the denominator `(p2 - p1)²` is then zero), and on the absolute
entry point also when `p1 = 0` (the conversion `absolute_mde / p1` divides by
zero before validation).  For `relative_mde ≠ 0` (resp. `p1 ≠ 0` and
`absolute_mde ≠ 0`), every failure is an invalid-parameter error. -/
theorem c3_error_kinds (PhiInv : ℚ → ℝ) (p1 relative_mde absolute_mde alpha power : ℚ)
    (two_tailed : Bool) (bonferroni_correction : ℤ) (split_ratio : ℚ) :
    (relative_mde ≠ 0 →
      ∀ e, calculate_sample_size_relative PhiInv p1 relative_mde alpha power two_tailed
          bonferroni_correction split_ratio = .error e →
        e.isInvalidParameter = true) ∧
    (p1 ≠ 0 → absolute_mde ≠ 0 →
      ∀ e, calculate_sample_size_absolute PhiInv p1 absolute_mde alpha power two_tailed
          bonferroni_correction split_ratio = .error e →
        e.isInvalidParameter = true) := by
  constructor
  · intro hm
    exact error_isInvalid_of_mde_ne_zero PhiInv alpha power two_tailed
      bonferroni_correction split_ratio hm
  · intro hp ha e he
    unfold calculate_sample_size_absolute at he
    rw [if_neg hp] at he
    exact error_isInvalid_of_mde_ne_zero PhiInv alpha power two_tailed
      bonferroni_correction split_ratio (div_ne_zero ha hp) e he

theorem c3_witness : ((1:ℚ)/10 ≠ 0)
    ∧ CalcError.isInvalidParameter CalcError.invalidP1 = true := by
  refine ⟨by norm_num, ?_⟩
  refine (c3_error_kinds phiInvStd 2 (1/10) (1/10) (1/20) (4/5) true 1 (1/2)).1
    (by norm_num) CalcError.invalidP1 ?_
  unfold calculate_sample_size_relative validate_inputs
  norm_num

/-- Claim C3 (counterexample to the claim as stated): the input
`p1 = 1/2, relative_mde = 0, alpha = 1/20, power = 4/5`, two-tailed,
`comparison_count = 1`, `traffic_split = 1/2` passes every validation check,
yet `estimate` fails with a `ZeroDivisionError` — not an
`InvalidParameterError` — because the denominator `(p2 - p1)²` is zero. -/
theorem c3_counterexample :
    calculate_sample_size_relative phiInvStd (1/2) 0 (1/20) (4/5) true 1 (1/2)
        = .error CalcError.divisionByZero
      ∧ CalcError.isInvalidParameter CalcError.divisionByZero = false := by
  constructor
  · unfold calculate_sample_size_relative validate_inputs treatment_rate
    norm_num
  · rfl

/-- Claim C9: the unequal-group rescaling is the identity at
`traffic_split = 1/2`: for every parameter set, the value `estimate` would
return at `traffic_split = 1/2` coincides with the equal-group base formula
of spec §4.1 steps 1–4 and 6 with no rescaling applied (the source skips the
rescaling branch when `split_ratio == 0.5`). -/
theorem c9_split_half_identity (PhiInv : ℚ → ℝ) (p1 relative_mde alpha power : ℚ)
    (two_tailed : Bool) (bonferroni_correction : ℤ) :
    requiredN PhiInv p1 relative_mde alpha power two_tailed bonferroni_correction (1/2)
      = specBaseRequiredN PhiInv p1 relative_mde alpha power two_tailed
        bonferroni_correction :=
  requiredN_half_eq PhiInv p1 relative_mde alpha power two_tailed bonferroni_correction

/-- Claim C1 (amended): for every parameter set passing validation with,
additionally, `relative_mde ≠ 0` (without which the computation divides by
zero and returns nothing), `estimate` with `traffic_split = 1/2` returns
exactly the ceiling of the specification's two-proportion formula
(`specBaseRequiredN`, spelled from the spec's words with `PhiInv` the
external standard-normal quantile primitive). -/
theorem c1_formula_at_half (PhiInv : ℚ → ℝ) {p1 relative_mde alpha power : ℚ}
    {bonferroni_correction : ℤ} (two_tailed : Bool)
    (h1 : 0 < p1) (h2 : p1 < 1) (h3 : -1 < relative_mde) (h4 : relative_mde < 1)
    (h5 : 0 < alpha) (h6 : alpha < 1) (h7 : 0 < power) (h8 : power < 1)
    (h9 : 1 ≤ bonferroni_correction)
    (h12a : 0 < treatment_rate p1 relative_mde)
    (h12b : treatment_rate p1 relative_mde < 1)
    (h13 : relative_mde ≠ 0) :
    calculate_sample_size_relative PhiInv p1 relative_mde alpha power two_tailed
        bonferroni_correction (1/2)
      = .ok (specBaseRequiredN PhiInv p1 relative_mde alpha power two_tailed
        bonferroni_correction) := by
  rw [calculate_relative_ok PhiInv two_tailed h1 h2 h3 h4 h5 h6 h7 h8 h9
    (by norm_num) (by norm_num) h12b h13]
  exact congrArg Except.ok
    (requiredN_half_eq PhiInv p1 relative_mde alpha power two_tailed bonferroni_correction)

theorem c1_witness : ((0:ℚ) < 1/2 ∧ (1:ℚ)/2 < 1 ∧ (-1:ℚ) < 1/5 ∧ (1:ℚ)/5 < 1
      ∧ (0:ℚ) < 1/20 ∧ (1:ℚ)/20 < 1 ∧ (0:ℚ) < 4/5 ∧ (4:ℚ)/5 < 1 ∧ (1:ℤ) ≤ 1
      ∧ 0 < treatment_rate (1/2) (1/5) ∧ treatment_rate (1/2) (1/5) < 1
      ∧ (1:ℚ)/5 ≠ 0)
    ∧ calculate_sample_size_relative phiInvStd (1/2) (1/5) (1/20) (4/5) true 1 (1/2)
      = .ok (specBaseRequiredN phiInvStd (1/2) (1/5) (1/20) (4/5) true 1) := by
  have hv : 0 < treatment_rate (1/2 : ℚ) (1/5) ∧ treatment_rate (1/2 : ℚ) (1/5) < 1 := by
    unfold treatment_rate; norm_num
  exact ⟨⟨by norm_num, by norm_num, by norm_num, by norm_num, by norm_num, by norm_num,
      by norm_num, by norm_num, le_refl 1, hv.1, hv.2, by norm_num⟩,
    c1_formula_at_half phiInvStd true (by norm_num) (by norm_num) (by norm_num)
      (by norm_num) (by norm_num) (by norm_num) (by norm_num) (by norm_num)
      (le_refl 1) hv.1 hv.2 (by norm_num)⟩

/-- Claim C1 (counterexample to the claim as stated): `relative_mde = 0`
satisfies every hypothesis the claim lists (validation passes and
`p2 = p1 ∈ (0,1)`), yet `estimate` raises `ZeroDivisionError` instead of
returning the ceiling of the formula. -/
theorem c1_counterexample :
    ((0:ℚ) < 1/2 ∧ (1:ℚ)/2 < 1 ∧ (-1:ℚ) < 0 ∧ (0:ℚ) < 1
      ∧ 0 < treatment_rate (1/2) 0 ∧ treatment_rate (1/2) 0 < 1)
    ∧ calculate_sample_size_relative phiInvStd (1/2) 0 (1/20) (4/5) true 1 (1/2)
      ≠ .ok (specBaseRequiredN phiInvStd (1/2) 0 (1/20) (4/5) true 1) := by
  refine ⟨by unfold treatment_rate; norm_num, ?_⟩
  have h : calculate_sample_size_relative phiInvStd (1/2) 0 (1/20) (4/5) true 1 (1/2)
      = .error CalcError.divisionByZero := by
    unfold calculate_sample_size_relative validate_inputs treatment_rate
    norm_num
  rw [h]
  exact fun hc => Except.noConfusion hc

/-- Claim C4 (confidence interval modelled from the spec, see
`confidence_interval`): for every valid input, `estimate` succeeds and every
admissible confidence interval around the returned `required_n` — a clamped
symmetric band of nonnegative half-width — satisfies
`lower ≤ required_n ≤ upper` and `lower ≥ 0`. -/
theorem c4_ci_bounds (PhiInv : ℚ → ℝ) {p1 relative_mde alpha power : ℚ}
    {bonferroni_correction : ℤ} {split_ratio : ℚ} (two_tailed : Bool)
    (h1 : 0 < p1) (h2 : p1 < 1) (h3 : -1 < relative_mde) (h4 : relative_mde < 1)
    (h5 : 0 < alpha) (h6 : alpha < 1) (h7 : 0 < power) (h8 : power < 1)
    (h9 : 1 ≤ bonferroni_correction) (h10 : 0 < split_ratio) (h11 : split_ratio < 1)
    (h12 : treatment_rate p1 relative_mde < 1) (h13 : relative_mde ≠ 0)
    (width : ℤ) (hw : 0 ≤ width) :
    calculate_sample_size_relative PhiInv p1 relative_mde alpha power two_tailed
        bonferroni_correction split_ratio
      = .ok (requiredN PhiInv p1 relative_mde alpha power two_tailed
        bonferroni_correction split_ratio)
    ∧ (confidence_interval (requiredN PhiInv p1 relative_mde alpha power two_tailed
        bonferroni_correction split_ratio) width).1
      ≤ requiredN PhiInv p1 relative_mde alpha power two_tailed
        bonferroni_correction split_ratio
    ∧ requiredN PhiInv p1 relative_mde alpha power two_tailed
        bonferroni_correction split_ratio
      ≤ (confidence_interval (requiredN PhiInv p1 relative_mde alpha power two_tailed
        bonferroni_correction split_ratio) width).2
    ∧ 0 ≤ (confidence_interval (requiredN PhiInv p1 relative_mde alpha power two_tailed
        bonferroni_correction split_ratio) width).1 := by
  have hn : 0 ≤ requiredN PhiInv p1 relative_mde alpha power two_tailed
      bonferroni_correction split_ratio :=
    requiredN_nonneg PhiInv p1 relative_mde alpha power two_tailed
      bonferroni_correction h10 h11
  refine ⟨calculate_relative_ok PhiInv two_tailed h1 h2 h3 h4 h5 h6 h7 h8 h9 h10 h11
    h12 h13, ?_, ?_, ?_⟩
  · exact max_le (by linarith) hn
  · exact le_add_of_nonneg_right hw
  · exact le_max_right _ _

theorem c4_witness : ((0:ℚ) < 1/2 ∧ (1:ℚ)/2 < 1 ∧ (-1:ℚ) < 1/5 ∧ (1:ℚ)/5 < 1
      ∧ (0:ℚ) < 1/20 ∧ (1:ℚ)/20 < 1 ∧ (0:ℚ) < 4/5 ∧ (4:ℚ)/5 < 1 ∧ (1:ℤ) ≤ 1
      ∧ (0:ℚ) < 1/4 ∧ (1:ℚ)/4 < 1 ∧ treatment_rate (1/2) (1/5) < 1
      ∧ (1:ℚ)/5 ≠ 0 ∧ (0:ℤ) ≤ 7)
    ∧ (confidence_interval (requiredN phiInvStd (1/2) (1/5) (1/20) (4/5) true 1 (1/4)) 7).1
      ≤ requiredN phiInvStd (1/2) (1/5) (1/20) (4/5) true 1 (1/4)
    ∧ 0 ≤ (confidence_interval (requiredN phiInvStd (1/2) (1/5) (1/20) (4/5) true 1 (1/4)) 7).1 := by
  have h12 : treatment_rate (1/2 : ℚ) (1/5) < 1 := by unfold treatment_rate; norm_num
  have h := @c4_ci_bounds phiInvStd (1/2) (1/5) (1/20) (4/5) 1 (1/4) true
    (by norm_num) (by norm_num) (by norm_num) (by norm_num) (by norm_num) (by norm_num)
    (by norm_num) (by norm_num) (le_refl 1) (by norm_num) (by norm_num) h12
    (by norm_num) 7 (by norm_num)
  exact ⟨⟨by norm_num, by norm_num, by norm_num, by norm_num, by norm_num, by norm_num,
      by norm_num, by norm_num, le_refl 1, by norm_num, by norm_num, h12,
      by norm_num, by norm_num⟩, h.2.1, h.2.2.2⟩

/-- Claim C8: the absolute-MDE entry point is the relative-MDE entry point at
`relative_mde = absolute_mde / p1`: whenever `p1 > 0` (part of any valid
parameter set), the two calls return identical results — in particular the
same `required_n` on success. -/
theorem c8_absolute_matches_relative (PhiInv : ℚ → ℝ)
    {p1 : ℚ} (absolute_mde alpha power : ℚ) (two_tailed : Bool)
    (bonferroni_correction : ℤ) (split_ratio : ℚ) (h1 : 0 < p1) :
    calculate_sample_size_absolute PhiInv p1 absolute_mde alpha power two_tailed
        bonferroni_correction split_ratio
      = calculate_sample_size_relative PhiInv p1 (absolute_mde / p1) alpha power
        two_tailed bonferroni_correction split_ratio := by
  unfold calculate_sample_size_absolute
  rw [if_neg (ne_of_gt h1)]

theorem c8_witness : ((0:ℚ) < 1/2)
    ∧ calculate_sample_size_absolute phiInvStd (1/2) (1/20) (1/20) (4/5) true 1 (1/2)
      = calculate_sample_size_relative phiInvStd (1/2) ((1/20) / (1/2)) (1/20) (4/5)
        true 1 (1/2) :=
  ⟨by norm_num, c8_absolute_matches_relative phiInvStd (1/20) (1/20) (4/5) true 1 (1/2)
    (by norm_num)⟩

/-- Claim C10: under the validated constraints `0 < p1 < 1` and
`-1 < relative_mde < 1`, the derived treatment rate `p2 = p1·(1+relative_mde)`
is strictly positive, so the source's single post-validation check `p2 >= 1`
suffices for `0 < p2 < 1`: whenever the call returns a value, the full
constraint holds. -/
theorem c10_treatment_rate_bounds (PhiInv : ℚ → ℝ) {p1 relative_mde : ℚ}
    (alpha power : ℚ) (two_tailed : Bool) (bonferroni_correction : ℤ)
    (split_ratio : ℚ)
    (h1 : 0 < p1) (h2 : p1 < 1) (h3 : -1 < relative_mde) (h4 : relative_mde < 1) :
    0 < treatment_rate p1 relative_mde
    ∧ (∀ n : ℤ, calculate_sample_size_relative PhiInv p1 relative_mde alpha power
        two_tailed bonferroni_correction split_ratio = .ok n →
      treatment_rate p1 relative_mde < 1) := by
  constructor
  · unfold treatment_rate
    exact mul_pos h1 (by linarith)
  · intro n hn
    unfold calculate_sample_size_relative at hn
    rcases hval : validate_inputs p1 relative_mde alpha power bonferroni_correction
        split_ratio with _ | e0
    · rw [hval] at hn
      split_ifs at hn with htr hdz
      exact not_le.mp htr
    · rw [hval] at hn
      cases hn

theorem c10_witness : ((0:ℚ) < 1/2 ∧ (1:ℚ)/2 < 1 ∧ (-1:ℚ) < 1/5 ∧ (1:ℚ)/5 < 1)
    ∧ 0 < treatment_rate (1/2) (1/5) :=
  ⟨⟨by norm_num, by norm_num, by norm_num, by norm_num⟩,
    (c10_treatment_rate_bounds phiInvStd (1/20) (4/5) true 1 (1/2)
      (by norm_num) (by norm_num) (by norm_num) (by norm_num)).1⟩

/-- Claim C5: each of the six validated constraints, when violated (with the
checks before it passing, regardless of the remaining parameters), makes
`estimate` fail with the corresponding invalid-parameter error — before any
arithmetic: the result does not depend on `PhiInv` and no numeric result is
produced.  All six reported errors are invalid-parameter errors. -/
theorem c5_validation_completeness (PhiInv : ℚ → ℝ) (p1 relative_mde alpha power : ℚ)
    (two_tailed : Bool) (bonferroni_correction : ℤ) (split_ratio : ℚ) :
    (¬(0 < p1 ∧ p1 < 1) →
      calculate_sample_size_relative PhiInv p1 relative_mde alpha power two_tailed
        bonferroni_correction split_ratio = .error .invalidP1)
    ∧ ((0 < p1 ∧ p1 < 1) → ¬(-1 < relative_mde ∧ relative_mde < 1) →
      calculate_sample_size_relative PhiInv p1 relative_mde alpha power two_tailed
        bonferroni_correction split_ratio = .error .invalidMde)
    ∧ ((0 < p1 ∧ p1 < 1) → (-1 < relative_mde ∧ relative_mde < 1) →
        ¬(0 < alpha ∧ alpha < 1) →
      calculate_sample_size_relative PhiInv p1 relative_mde alpha power two_tailed
        bonferroni_correction split_ratio = .error .invalidAlpha)
    ∧ ((0 < p1 ∧ p1 < 1) → (-1 < relative_mde ∧ relative_mde < 1) →
        (0 < alpha ∧ alpha < 1) → ¬(0 < power ∧ power < 1) →
      calculate_sample_size_relative PhiInv p1 relative_mde alpha power two_tailed
        bonferroni_correction split_ratio = .error .invalidPower)
    ∧ ((0 < p1 ∧ p1 < 1) → (-1 < relative_mde ∧ relative_mde < 1) →
        (0 < alpha ∧ alpha < 1) → (0 < power ∧ power < 1) →
        bonferroni_correction < 1 →
      calculate_sample_size_relative PhiInv p1 relative_mde alpha power two_tailed
        bonferroni_correction split_ratio = .error .invalidBonferroni)
    ∧ ((0 < p1 ∧ p1 < 1) → (-1 < relative_mde ∧ relative_mde < 1) →
        (0 < alpha ∧ alpha < 1) → (0 < power ∧ power < 1) →
        1 ≤ bonferroni_correction → ¬(0 < split_ratio ∧ split_ratio < 1) →
      calculate_sample_size_relative PhiInv p1 relative_mde alpha power two_tailed
        bonferroni_correction split_ratio = .error .invalidSplit)
    ∧ (CalcError.invalidP1.isInvalidParameter = true
      ∧ CalcError.invalidMde.isInvalidParameter = true
      ∧ CalcError.invalidAlpha.isInvalidParameter = true
      ∧ CalcError.invalidPower.isInvalidParameter = true
      ∧ CalcError.invalidBonferroni.isInvalidParameter = true
      ∧ CalcError.invalidSplit.isInvalidParameter = true) := by
  refine ⟨?_, ?_, ?_, ?_, ?_, ?_, rfl, rfl, rfl, rfl, rfl, rfl⟩ <;>
    intros <;>
    · unfold calculate_sample_size_relative validate_inputs
      simp_all [not_not, not_lt.mpr]

theorem c5_witness :
    (¬((0:ℚ) < 2 ∧ (2:ℚ) < 1))
    ∧ calculate_sample_size_relative phiInvStd 2 (1/10) (1/20) (4/5) true 1 (1/2)
      = .error CalcError.invalidP1 :=
  ⟨by norm_num,
    (c5_validation_completeness phiInvStd 2 (1/10) (1/20) (4/5) true 1 (1/2)).1
      (by norm_num)⟩

theorem ceil_eq_of_bounds {X : ℝ} {N : ℤ} (h1 : (N:ℝ) - 1 < X) (h2 : X ≤ N) : ⌈X⌉ = N :=
  Int.ceil_eq_iff.mpr ⟨h1, h2⟩

theorem sqrt_bounds {x l u : ℝ} (hl : 0 ≤ l) (h1 : l^2 < x) (h2 : x < u^2) (hu : 0 < u) :
    l < Real.sqrt x ∧ Real.sqrt x < u :=
  ⟨(Real.lt_sqrt hl).mpr h1, (Real.sqrt_lt' hu).mpr h2⟩

theorem requiredN_eval_mde96 :
    requiredN phiInvStd (1/2) (24/25) (1/20) (4/5) true 1 (1/2) = 12 := by
  have h : requiredN phiInvStd (1/2) (24/25) (1/20) (4/5) true 1 (1/2)
      = ⌈((196/100 * Real.sqrt (481/1250) + 8416/10000 * Real.sqrt (337/1250)) ^ 2
        / ((12/25 : ℝ)) ^ 2 : ℝ)⌉ := by
    unfold requiredN n_scaled n_equal z_alpha_arg adjusted_alpha
    rw [if_pos rfl]
    norm_num [phiInvStd, null_variance_term, alt_variance_term, p_bar, treatment_rate]
  rw [h]
  obtain ⟨ha1, ha2⟩ := sqrt_bounds (x := (481/1250 : ℝ)) (l := 6203/10000)
    (u := 6204/10000) (by norm_num) (by norm_num) (by norm_num) (by norm_num)
  obtain ⟨hb1, hb2⟩ := sqrt_bounds (x := (337/1250 : ℝ)) (l := 5192/10000)
    (u := 5193/10000) (by norm_num) (by norm_num) (by norm_num) (by norm_num)
  apply ceil_eq_of_bounds
  · rw [lt_div_iff₀ (by norm_num)]
    nlinarith [ha1, hb1, Real.sqrt_nonneg (481/1250 : ℝ), Real.sqrt_nonneg (337/1250 : ℝ)]
  · rw [div_le_iff₀ (by norm_num)]
    nlinarith [ha2, hb2, Real.sqrt_nonneg (481/1250 : ℝ), Real.sqrt_nonneg (337/1250 : ℝ)]

theorem requiredN_eval_mde98 :
    requiredN phiInvStd (1/2) (49/50) (1/20) (4/5) true 1 (1/2) = 12 := by
  have h : requiredN phiInvStd (1/2) (49/50) (1/20) (4/5) true 1 (1/2)
      = ⌈((196/100 * Real.sqrt (7599/20000) + 8416/10000 * Real.sqrt (2599/10000)) ^ 2
        / ((49/100 : ℝ)) ^ 2 : ℝ)⌉ := by
    unfold requiredN n_scaled n_equal z_alpha_arg adjusted_alpha
    rw [if_pos rfl]
    norm_num [phiInvStd, null_variance_term, alt_variance_term, p_bar, treatment_rate]
  rw [h]
  obtain ⟨ha1, ha2⟩ := sqrt_bounds (x := (7599/20000 : ℝ)) (l := 6164/10000)
    (u := 6165/10000) (by norm_num) (by norm_num) (by norm_num) (by norm_num)
  obtain ⟨hb1, hb2⟩ := sqrt_bounds (x := (2599/10000 : ℝ)) (l := 5098/10000)
    (u := 5099/10000) (by norm_num) (by norm_num) (by norm_num) (by norm_num)
  apply ceil_eq_of_bounds
  · rw [lt_div_iff₀ (by norm_num)]
    nlinarith [ha1, hb1, Real.sqrt_nonneg (7599/20000 : ℝ), Real.sqrt_nonneg (2599/10000 : ℝ)]
  · rw [div_le_iff₀ (by norm_num)]
    nlinarith [ha2, hb2, Real.sqrt_nonneg (7599/20000 : ℝ), Real.sqrt_nonneg (2599/10000 : ℝ)]

theorem requiredN_eval_split14 :
    requiredN phiInvStd (1/2) (1/5) (1/20) (4/5) true 1 (1/4) = 130 := by
  have h : requiredN phiInvStd (1/2) (1/5) (1/20) (4/5) true 1 (1/4)
      = ⌈((196/100 * Real.sqrt (99/200) + 8416/10000 * Real.sqrt (49/100)) ^ 2
        / ((1/10 : ℝ)) ^ 2 * (1/3 : ℝ) : ℝ)⌉ := by
    unfold requiredN n_scaled n_equal z_alpha_arg adjusted_alpha
    rw [if_neg (by norm_num : ¬((1/4 : ℚ) = 1/2))]
    norm_num [phiInvStd, null_variance_term, alt_variance_term, p_bar, treatment_rate,
      split_adjust]
  rw [h]
  obtain ⟨ha1, ha2⟩ := sqrt_bounds (x := (99/200 : ℝ)) (l := 70356/100000)
    (u := 70357/100000) (by norm_num) (by norm_num) (by norm_num) (by norm_num)
  obtain ⟨hb1, hb2⟩ := sqrt_bounds (x := (49/100 : ℝ)) (l := 69999/100000)
    (u := 70001/100000) (by norm_num) (by norm_num) (by norm_num) (by norm_num)
  apply ceil_eq_of_bounds
  · have hx : (0:ℝ) < (1/10 : ℝ) ^ 2 := by norm_num
    rw [div_mul_eq_mul_div, lt_div_iff₀ hx]
    nlinarith [ha1, hb1, Real.sqrt_nonneg (99/200 : ℝ), Real.sqrt_nonneg (49/100 : ℝ)]
  · have hx : (0:ℝ) < (1/10 : ℝ) ^ 2 := by norm_num
    rw [div_mul_eq_mul_div, div_le_iff₀ hx]
    nlinarith [ha2, hb2, Real.sqrt_nonneg (99/200 : ℝ), Real.sqrt_nonneg (49/100 : ℝ)]

theorem requiredN_eval_split34 :
    requiredN phiInvStd (1/2) (1/5) (1/20) (4/5) true 1 (3/4) = 388 := by
  have h : requiredN phiInvStd (1/2) (1/5) (1/20) (4/5) true 1 (3/4)
      = ⌈((196/100 * Real.sqrt (99/200) + 8416/10000 * Real.sqrt (49/100)) ^ 2
        / ((1/10 : ℝ)) ^ 2 * (1 : ℝ) : ℝ)⌉ := by
    unfold requiredN n_scaled n_equal z_alpha_arg adjusted_alpha
    rw [if_neg (by norm_num : ¬((3/4 : ℚ) = 1/2))]
    norm_num [phiInvStd, null_variance_term, alt_variance_term, p_bar, treatment_rate,
      split_adjust]
  rw [h]
  obtain ⟨ha1, ha2⟩ := sqrt_bounds (x := (99/200 : ℝ)) (l := 70356/100000)
    (u := 70357/100000) (by norm_num) (by norm_num) (by norm_num) (by norm_num)
  obtain ⟨hb1, hb2⟩ := sqrt_bounds (x := (49/100 : ℝ)) (l := 69999/100000)
    (u := 70001/100000) (by norm_num) (by norm_num) (by norm_num) (by norm_num)
  apply ceil_eq_of_bounds
  · have hx : (0:ℝ) < (1/10 : ℝ) ^ 2 := by norm_num
    rw [mul_one, lt_div_iff₀ hx]
    nlinarith [ha1, hb1, Real.sqrt_nonneg (99/200 : ℝ), Real.sqrt_nonneg (49/100 : ℝ)]
  · have hx : (0:ℝ) < (1/10 : ℝ) ^ 2 := by norm_num
    rw [mul_one, div_le_iff₀ hx]
    nlinarith [ha2, hb2, Real.sqrt_nonneg (99/200 : ℝ), Real.sqrt_nonneg (49/100 : ℝ)]

theorem requiredN_eval_bonf1 :
    requiredN phiInvStd (1/2) (1/5) (9/10) (1/100) true 1 (1/2) = 238 := by
  have h : requiredN phiInvStd (1/2) (1/5) (9/10) (1/100) true 1 (1/2)
      = ⌈((1257/10000 * Real.sqrt (99/200) + -23263/10000 * Real.sqrt (49/100)) ^ 2
        / ((1/10 : ℝ)) ^ 2 : ℝ)⌉ := by
    unfold requiredN n_scaled n_equal z_alpha_arg adjusted_alpha
    rw [if_pos rfl]
    norm_num [phiInvStd, null_variance_term, alt_variance_term, p_bar, treatment_rate]
  rw [h]
  obtain ⟨ha1, ha2⟩ := sqrt_bounds (x := (99/200 : ℝ)) (l := 70356/100000)
    (u := 70357/100000) (by norm_num) (by norm_num) (by norm_num) (by norm_num)
  obtain ⟨hb1, hb2⟩ := sqrt_bounds (x := (49/100 : ℝ)) (l := 69999/100000)
    (u := 70001/100000) (by norm_num) (by norm_num) (by norm_num) (by norm_num)
  set a := Real.sqrt (99/200 : ℝ)
  set b := Real.sqrt (49/100 : ℝ)
  have hS_lo : -(154/100 : ℝ) ≤ 1257/10000 * a + -23263/10000 * b := by nlinarith
  have hS_hi : 1257/10000 * a + -23263/10000 * b ≤ -(15399/10000 : ℝ) := by nlinarith
  apply ceil_eq_of_bounds
  · rw [lt_div_iff₀ (by norm_num : (0:ℝ) < (1/10 : ℝ) ^ 2)]
    nlinarith [hS_lo, hS_hi,
      sq_nonneg (1257/10000 * a + -23263/10000 * b + 15399/10000)]
  · rw [div_le_iff₀ (by norm_num : (0:ℝ) < (1/10 : ℝ) ^ 2)]
    nlinarith [hS_lo, hS_hi,
      sq_nonneg (1257/10000 * a + -23263/10000 * b + 154/100)]

theorem requiredN_eval_bonf2 :
    requiredN phiInvStd (1/2) (1/5) (9/10) (1/100) true 2 (1/2) = 121 := by
  have h : requiredN phiInvStd (1/2) (1/5) (9/10) (1/100) true 2 (1/2)
      = ⌈((7554/10000 * Real.sqrt (99/200) + -23263/10000 * Real.sqrt (49/100)) ^ 2
        / ((1/10 : ℝ)) ^ 2 : ℝ)⌉ := by
    unfold requiredN n_scaled n_equal z_alpha_arg adjusted_alpha
    rw [if_pos rfl]
    norm_num [phiInvStd, null_variance_term, alt_variance_term, p_bar, treatment_rate]
  rw [h]
  obtain ⟨ha1, ha2⟩ := sqrt_bounds (x := (99/200 : ℝ)) (l := 70356/100000)
    (u := 70357/100000) (by norm_num) (by norm_num) (by norm_num) (by norm_num)
  obtain ⟨hb1, hb2⟩ := sqrt_bounds (x := (49/100 : ℝ)) (l := 69999/100000)
    (u := 70001/100000) (by norm_num) (by norm_num) (by norm_num) (by norm_num)
  set a := Real.sqrt (99/200 : ℝ)
  set b := Real.sqrt (49/100 : ℝ)
  have hS_lo : -(1097/1000 : ℝ) ≤ 7554/10000 * a + -23263/10000 * b := by nlinarith
  have hS_hi : 7554/10000 * a + -23263/10000 * b ≤ -(10969/10000 : ℝ) := by nlinarith
  apply ceil_eq_of_bounds
  · rw [lt_div_iff₀ (by norm_num : (0:ℝ) < (1/10 : ℝ) ^ 2)]
    nlinarith [hS_lo, hS_hi,
      sq_nonneg (7554/10000 * a + -23263/10000 * b + 10969/10000)]
  · rw [div_le_iff₀ (by norm_num : (0:ℝ) < (1/10 : ℝ) ^ 2)]
    nlinarith [hS_lo, hS_hi,
      sq_nonneg (7554/10000 * a + -23263/10000 * b + 1097/1000)]

/-- Claim C2 (evidence of the code bug): split symmetry fails.  With
`p1 = 1/2, relative_mde = 1/5, alpha = 1/20, power = 4/5`, two-sided, one
comparison (critical values `1.96` and `0.8416` from the standard-normal
quantile), `estimate` returns `required_n = 130` at `traffic_split = 1/4`
but `388` at `traffic_split = 3/4 = 1 - 1/4`.  The source multiplies the
base size by `(1+k)/(4k) = 1/(4(1-t))`, which is not symmetric under
`t ↔ 1-t`; the standard unequal-allocation factor is `(1+k)²/(4k)` (the
code omits the square, which is also why the factor does not tend to 1 as
`t → 1/2`). -/
theorem c2_split_asymmetry :
    ((3/4 : ℚ) = 1 - 1/4)
    ∧ calculate_sample_size_relative phiInvStd (1/2) (1/5) (1/20) (4/5) true 1 (1/4)
      = .ok 130
    ∧ calculate_sample_size_relative phiInvStd (1/2) (1/5) (1/20) (4/5) true 1 (3/4)
      = .ok 388
    ∧ (130 : ℤ) ≠ 388 := by
  refine ⟨by norm_num, ?_, ?_, by decide⟩
  · rw [calculate_relative_ok phiInvStd true (by norm_num) (by norm_num) (by norm_num)
      (by norm_num) (by norm_num) (by norm_num) (by norm_num) (by norm_num) (le_refl 1)
      (by norm_num) (by norm_num) (by unfold treatment_rate; norm_num) (by norm_num)]
    exact congrArg Except.ok requiredN_eval_split14
  · rw [calculate_relative_ok phiInvStd true (by norm_num) (by norm_num) (by norm_num)
      (by norm_num) (by norm_num) (by norm_num) (by norm_num) (by norm_num) (le_refl 1)
      (by norm_num) (by norm_num) (by unfold treatment_rate; norm_num) (by norm_num)]
    exact congrArg Except.ok requiredN_eval_split34

/-- Claim C6 (counterexample to the claim as stated): Bonferroni
monotonicity fails for low power.  With `alpha = 9/10`, `power = 1/100`
(valid inputs: the code only requires `0 < power < 1`), baseline `1/2`,
`relative_mde = 1/5`, two-sided, equal split, and `phiInvStd` a monotone
quantile model matching `norm.ppf` to `1e-4` at the sampled points
(`Φ⁻¹(0.01) ≈ -2.3263`, `Φ⁻¹(0.55) ≈ 0.1257`, `Φ⁻¹(0.775) ≈ 0.7554`),
raising `comparison_count` from 1 to 2 DECREASES `required_n` from 238 to
121: with `z_power < 0` the sum of z-terms is negative, and increasing
`z_alpha` shrinks its square. -/
theorem c6_counterexample :
    (∀ a b : ℚ, a ≤ b → phiInvStd a ≤ phiInvStd b)
    ∧ (1:ℤ) ≤ 1 ∧ (1:ℤ) ≤ 2
    ∧ calculate_sample_size_relative phiInvStd (1/2) (1/5) (9/10) (1/100) true 1 (1/2)
      = .ok 238
    ∧ calculate_sample_size_relative phiInvStd (1/2) (1/5) (9/10) (1/100) true 2 (1/2)
      = .ok 121
    ∧ ¬((238:ℤ) ≤ 121) := by
  refine ⟨phiInvStd_mono, le_refl 1, by decide, ?_, ?_, by decide⟩
  · rw [calculate_relative_ok phiInvStd true (by norm_num) (by norm_num) (by norm_num)
      (by norm_num) (by norm_num) (by norm_num) (by norm_num) (by norm_num) (le_refl 1)
      (by norm_num) (by norm_num) (by unfold treatment_rate; norm_num) (by norm_num)]
    exact congrArg Except.ok requiredN_eval_bonf1
  · rw [calculate_relative_ok phiInvStd true (by norm_num) (by norm_num) (by norm_num)
      (by norm_num) (by norm_num) (by norm_num) (by norm_num) (by norm_num)
      (by norm_num) (by norm_num) (by norm_num)
      (by unfold treatment_rate; norm_num) (by norm_num)]
    exact congrArg Except.ok requiredN_eval_bonf2

/-- Claim C7 (counterexample to the claim as stated): strict monotonicity in
`|relative_mde|` fails because of the ceiling.  With the standard design
(`alpha = 1/20`, `power = 4/5`, two-sided, one comparison, equal split;
critical values `1.96` and `0.8416` from the standard-normal quantile) and
baseline `1/2`, the effects `24/25` and `49/50` satisfy `|24/25| < |49/50|`
yet both calls return `required_n = 12` (the real-valued sizes `≈ 11.86` and
`≈ 11.16` round up to the same integer), so the larger effect does not give a
strictly smaller sample. -/
theorem c7_counterexample :
    (∀ a b : ℚ, a ≤ b → phiInvStd a ≤ phiInvStd b)
    ∧ |(24/25 : ℚ)| < |(49/50 : ℚ)|
    ∧ calculate_sample_size_relative phiInvStd (1/2) (24/25) (1/20) (4/5) true 1 (1/2)
      = .ok 12
    ∧ calculate_sample_size_relative phiInvStd (1/2) (49/50) (1/20) (4/5) true 1 (1/2)
      = .ok 12
    ∧ ¬((12:ℤ) < 12) := by
  refine ⟨phiInvStd_mono, by rw [abs_of_pos, abs_of_pos] <;> norm_num, ?_, ?_, by decide⟩
  · rw [calculate_relative_ok phiInvStd true (by norm_num) (by norm_num) (by norm_num)
      (by norm_num) (by norm_num) (by norm_num) (by norm_num) (by norm_num) (le_refl 1)
      (by norm_num) (by norm_num) (by unfold treatment_rate; norm_num) (by norm_num)]
    exact congrArg Except.ok requiredN_eval_mde96
  · rw [calculate_relative_ok phiInvStd true (by norm_num) (by norm_num) (by norm_num)
      (by norm_num) (by norm_num) (by norm_num) (by norm_num) (by norm_num) (le_refl 1)
      (by norm_num) (by norm_num) (by unfold treatment_rate; norm_num) (by norm_num)]
    exact congrArg Except.ok requiredN_eval_mde98

theorem requiredN_le_of_n_equal_le (PhiInv : ℚ → ℝ)
    {p1a ma alphaa powera : ℚ} {tta : Bool} {ca : ℤ}
    {p1b mb alphab powerb : ℚ} {ttb : Bool} {cb : ℤ} {split_ratio : ℚ}
    (h10 : 0 < split_ratio) (h11 : split_ratio < 1)
    (hle : n_equal PhiInv p1a ma alphaa powera tta ca
      ≤ n_equal PhiInv p1b mb alphab powerb ttb cb) :
    requiredN PhiInv p1a ma alphaa powera tta ca split_ratio
      ≤ requiredN PhiInv p1b mb alphab powerb ttb cb split_ratio := by
  apply Int.ceil_le_ceil
  unfold n_scaled
  split_ifs
  · exact hle
  · exact mul_le_mul_of_nonneg_right hle
      (by exact_mod_cast split_adjust_nonneg h10 h11)

/-- Claim C6 (amended): Bonferroni monotonicity holds whenever the critical
values are nonnegative — `z_power = Φ⁻¹(power) ≥ 0` (true for the standard
normal quantile iff `power ≥ 1/2`) and `z_alpha ≥ 0` at the smaller
comparison count (automatic for two-sided tests) — and the quantile is
monotone: for `1 ≤ c1 ≤ c2` and any otherwise-valid parameter set,
`estimate` succeeds at both counts and `required_n` does not decrease. -/
theorem c6_bonferroni_monotone (PhiInv : ℚ → ℝ) {p1 relative_mde alpha power : ℚ}
    {c1 c2 : ℤ} {split_ratio : ℚ} (two_tailed : Bool)
    (hmono : ∀ a b : ℚ, a ≤ b → PhiInv a ≤ PhiInv b)
    (hzp : 0 ≤ PhiInv power)
    (hza : 0 ≤ PhiInv (z_alpha_arg alpha c1 two_tailed))
    (h1 : 0 < p1) (h2 : p1 < 1) (h3 : -1 < relative_mde) (h4 : relative_mde < 1)
    (h5 : 0 < alpha) (h6 : alpha < 1) (h7 : 0 < power) (h8 : power < 1)
    (h9 : 1 ≤ c1) (h9b : c1 ≤ c2) (h10 : 0 < split_ratio) (h11 : split_ratio < 1)
    (h12 : treatment_rate p1 relative_mde < 1) (h13 : relative_mde ≠ 0) :
    calculate_sample_size_relative PhiInv p1 relative_mde alpha power two_tailed c1
        split_ratio
      = .ok (requiredN PhiInv p1 relative_mde alpha power two_tailed c1 split_ratio)
    ∧ calculate_sample_size_relative PhiInv p1 relative_mde alpha power two_tailed c2
        split_ratio
      = .ok (requiredN PhiInv p1 relative_mde alpha power two_tailed c2 split_ratio)
    ∧ requiredN PhiInv p1 relative_mde alpha power two_tailed c1 split_ratio
      ≤ requiredN PhiInv p1 relative_mde alpha power two_tailed c2 split_ratio := by
  have hc1 : (0:ℚ) < (c1 : ℚ) := by exact_mod_cast lt_of_lt_of_le Int.zero_lt_one h9
  have hc2 : (0:ℚ) < (c2 : ℚ) := by
    exact_mod_cast lt_of_lt_of_le Int.zero_lt_one (le_trans h9 h9b)
  have hcc : (c1 : ℚ) ≤ (c2 : ℚ) := by exact_mod_cast h9b
  have harg : z_alpha_arg alpha c1 two_tailed ≤ z_alpha_arg alpha c2 two_tailed := by
    have hadj : adjusted_alpha alpha c2 ≤ adjusted_alpha alpha c1 := by
      unfold adjusted_alpha
      gcongr
    unfold z_alpha_arg
    split_ifs <;> linarith
  have hzaa : PhiInv (z_alpha_arg alpha c1 two_tailed)
      ≤ PhiInv (z_alpha_arg alpha c2 two_tailed) := hmono _ _ harg
  have hS1 : 0 ≤ PhiInv (z_alpha_arg alpha c1 two_tailed)
        * Real.sqrt (null_variance_term p1 relative_mde : ℝ)
      + PhiInv power * Real.sqrt (alt_variance_term p1 relative_mde : ℝ) :=
    add_nonneg (mul_nonneg hza (Real.sqrt_nonneg _)) (mul_nonneg hzp (Real.sqrt_nonneg _))
  have hSS : PhiInv (z_alpha_arg alpha c1 two_tailed)
        * Real.sqrt (null_variance_term p1 relative_mde : ℝ)
      + PhiInv power * Real.sqrt (alt_variance_term p1 relative_mde : ℝ)
      ≤ PhiInv (z_alpha_arg alpha c2 two_tailed)
        * Real.sqrt (null_variance_term p1 relative_mde : ℝ)
      + PhiInv power * Real.sqrt (alt_variance_term p1 relative_mde : ℝ) := by
    have := mul_le_mul_of_nonneg_right hzaa
      (Real.sqrt_nonneg ((null_variance_term p1 relative_mde : ℝ)))
    linarith
  have hdeq : (treatment_rate p1 relative_mde - p1) = p1 * relative_mde := by
    unfold treatment_rate; ring
  have hdq : ((treatment_rate p1 relative_mde - p1 : ℚ) : ℝ) ≠ 0 := by
    rw [hdeq]
    exact_mod_cast mul_ne_zero (ne_of_gt h1) h13
  have hd2 : (0:ℝ) < ((treatment_rate p1 relative_mde - p1 : ℚ) : ℝ)^2 :=
    pow_two_pos_of_ne_zero hdq
  have hne : n_equal PhiInv p1 relative_mde alpha power two_tailed c1
      ≤ n_equal PhiInv p1 relative_mde alpha power two_tailed c2 := by
    unfold n_equal
    exact (div_le_div_right hd2).mpr (pow_le_pow_left hS1 hSS 2)
  exact ⟨calculate_relative_ok PhiInv two_tailed h1 h2 h3 h4 h5 h6 h7 h8 h9 h10 h11
      h12 h13,
    calculate_relative_ok PhiInv two_tailed h1 h2 h3 h4 h5 h6 h7 h8 (le_trans h9 h9b)
      h10 h11 h12 h13,
    requiredN_le_of_n_equal_le PhiInv h10 h11 hne⟩

theorem c6_witness :
    ((∀ a b : ℚ, a ≤ b → phiInvStd a ≤ phiInvStd b)
      ∧ 0 ≤ phiInvStd (4/5) ∧ 0 ≤ phiInvStd (z_alpha_arg (1/20) 1 true)
      ∧ (0:ℚ) < 1/2 ∧ (1:ℚ)/2 < 1 ∧ (-1:ℚ) < 1/5 ∧ (1:ℚ)/5 < 1
      ∧ (0:ℚ) < 1/20 ∧ (1:ℚ)/20 < 1 ∧ (0:ℚ) < 4/5 ∧ (4:ℚ)/5 < 1
      ∧ (1:ℤ) ≤ 1 ∧ (1:ℤ) ≤ 2 ∧ (0:ℚ) < 1/2 ∧ (1:ℚ)/2 < 1
      ∧ treatment_rate (1/2) (1/5) < 1 ∧ (1:ℚ)/5 ≠ 0)
    ∧ requiredN phiInvStd (1/2) (1/5) (1/20) (4/5) true 1 (1/2)
      ≤ requiredN phiInvStd (1/2) (1/5) (1/20) (4/5) true 2 (1/2) := by
  have hzp : 0 ≤ phiInvStd (4/5) := by norm_num [phiInvStd]
  have hza : 0 ≤ phiInvStd (z_alpha_arg (1/20) 1 true) := by
    norm_num [phiInvStd, z_alpha_arg, adjusted_alpha]
  have h12 : treatment_rate (1/2 : ℚ) (1/5) < 1 := by unfold treatment_rate; norm_num
  exact ⟨⟨phiInvStd_mono, hzp, hza, by norm_num, by norm_num, by norm_num, by norm_num,
      by norm_num, by norm_num, by norm_num, by norm_num, le_refl 1, by decide,
      by norm_num, by norm_num, h12, by norm_num⟩,
    (c6_bonferroni_monotone phiInvStd true phiInvStd_mono hzp hza (by norm_num)
      (by norm_num) (by norm_num) (by norm_num) (by norm_num) (by norm_num)
      (by norm_num) (by norm_num) (le_refl 1) (by decide) (by norm_num) (by norm_num)
      h12 (by norm_num)).2.2⟩

theorem null_variance_nonneg {p1 m : ℚ} (h1 : 0 < p1) (h2 : p1 < 1) (h3 : -1 < m)
    (htr : treatment_rate p1 m < 1) : 0 ≤ null_variance_term p1 m := by
  unfold treatment_rate at htr
  unfold null_variance_term p_bar treatment_rate
  nlinarith [mul_pos h1 (by linarith : (0:ℚ) < 1 + m)]

theorem alt_variance_nonneg {p1 m : ℚ} (h1 : 0 < p1) (h2 : p1 < 1) (h3 : -1 < m)
    (htr : treatment_rate p1 m < 1) : 0 ≤ alt_variance_term p1 m := by
  unfold treatment_rate at htr
  unfold alt_variance_term treatment_rate
  nlinarith [mul_pos h1 (by linarith : (0:ℚ) < 1 + m)]

theorem null_term_le {p1 m1 m2 : ℚ} (h1 : 0 < p1) (h2 : p1 < 1)
    (hsign : (0 < m1 ∧ m1 < m2) ∨ (m2 < m1 ∧ m1 < 0 ∧ -1 < m2))
    (htr2 : treatment_rate p1 m2 < 1) :
    null_variance_term p1 m2 * (p1*m1)^2 ≤ null_variance_term p1 m1 * (p1*m2)^2 := by
  have hiden : null_variance_term p1 m1 * (p1*m2)^2 - null_variance_term p1 m2 * (p1*m1)^2
      = 2*p1^3*(m2-m1)*((m1+m2+m1*m2/2) - p1*(m1+m2+m1*m2)) := by
    unfold null_variance_term p_bar treatment_rate; ring
  unfold treatment_rate at htr2
  rcases hsign with ⟨hm1, hm12⟩ | ⟨hm21, hm10, hm2n⟩
  · have hm2 : 0 < m2 := lt_trans hm1 hm12
    have hSP : 0 < m1 + m2 + m1*m2 := by positivity
    have h1m2 : 0 < 1 + m2 := by linarith
    have k1 : p1 * (1 + m2) * (m1 + m2 + m1*m2) < m1 + m2 + m1*m2 := by
      calc p1 * (1 + m2) * (m1 + m2 + m1*m2) < 1 * (m1 + m2 + m1*m2) :=
        mul_lt_mul_of_pos_right (by linarith) hSP
      _ = m1 + m2 + m1*m2 := one_mul _
    have hq2 : 0 < m1*m2/2 + m2^2 + m1*m2^2/2 := by positivity
    have hbr : 0 < (m1+m2+m1*m2/2) - p1*(m1+m2+m1*m2) := by
      nlinarith [k1, hq2, h1m2]
    have hE : 0 < 2*p1^3*(m2-m1)*((m1+m2+m1*m2/2) - p1*(m1+m2+m1*m2)) :=
      mul_pos (mul_pos (by positivity) (by linarith)) hbr
    linarith [hiden, hE]
  · have h1m1 : 0 < 1 + m1 := by linarith
    have h1m2 : 0 < 1 + m2 := by linarith
    have hB : m1 + m2 + m1*m2 < 0 := by nlinarith [mul_pos h1m1 h1m2]
    have hP : 0 < m1*m2 := mul_pos_of_neg_of_neg hm10 (lt_trans hm21 hm10)
    have hbr : (m1 + m2 + m1*m2/2) - p1*(m1 + m2 + m1*m2) < 0 := by
      nlinarith [mul_pos (sub_pos.mpr h2) (neg_pos.mpr hB)]
    have hE : 0 < 2*p1^3*(m2-m1)*((m1+m2+m1*m2/2) - p1*(m1+m2+m1*m2)) := by
      have := mul_pos_of_neg_of_neg (a := m2 - m1)
        (b := (m1+m2+m1*m2/2) - p1*(m1+m2+m1*m2)) (by linarith) hbr
      have hp3 : (0:ℚ) < 2*p1^3 := by positivity
      calc (0:ℚ) < 2*p1^3 * ((m2-m1)*((m1+m2+m1*m2/2) - p1*(m1+m2+m1*m2))) :=
        mul_pos hp3 this
      _ = 2*p1^3*(m2-m1)*((m1+m2+m1*m2/2) - p1*(m1+m2+m1*m2)) := by ring
    linarith [hiden, hE]

theorem alt_term_le {p1 m1 m2 : ℚ} (h1 : 0 < p1) (h2 : p1 < 1)
    (hsign : (0 < m1 ∧ m1 < m2) ∨ (m2 < m1 ∧ m1 < 0 ∧ -1 < m2))
    (htr2 : treatment_rate p1 m2 < 1) :
    alt_variance_term p1 m2 * (p1*m1)^2 ≤ alt_variance_term p1 m1 * (p1*m2)^2 := by
  have hiden : alt_variance_term p1 m1 * (p1*m2)^2 - alt_variance_term p1 m2 * (p1*m1)^2
      = p1^3*(m2-m1)*(2*(m1+m2)*(1-p1) + m1*m2*(1-2*p1)) := by
    unfold alt_variance_term treatment_rate; ring
  unfold treatment_rate at htr2
  rcases hsign with ⟨hm1, hm12⟩ | ⟨hm21, hm10, hm2n⟩
  · have hm2 : 0 < m2 := lt_trans hm1 hm12
    have hSP : 0 < 2*(m1+m2) + m1*m2 := by positivity
    have h1m2 : 0 < 1 + m2 := by linarith
    have k1 : p1 * (1 + m2) * (2*(m1+m2) + m1*m2) < 2*(m1+m2) + m1*m2 := by
      calc p1 * (1 + m2) * (2*(m1+m2) + m1*m2) < 1 * (2*(m1+m2) + m1*m2) :=
        mul_lt_mul_of_pos_right (by linarith) hSP
      _ = 2*(m1+m2) + m1*m2 := one_mul _
    have hq2 : 0 < m1*m2 + 2*m2^2 + m1*m2^2 := by positivity
    have hbr : 0 < 2*(m1+m2)*(1-p1) + m1*m2*(1-2*p1) := by
      nlinarith [k1, hq2, h1m2]
    have hE : 0 < p1^3*(m2-m1)*(2*(m1+m2)*(1-p1) + m1*m2*(1-2*p1)) :=
      mul_pos (mul_pos (by positivity) (by linarith)) hbr
    linarith [hiden, hE]
  · have h1m1 : 0 < 1 + m1 := by linarith
    have h1m2 : 0 < 1 + m2 := by linarith
    have hB : m1 + m2 + m1*m2 < 0 := by nlinarith [mul_pos h1m1 h1m2]
    have hP : 0 < m1*m2 := mul_pos_of_neg_of_neg hm10 (lt_trans hm21 hm10)
    have h2SP : 2*(m1+m2) + m1*m2 < 0 := by linarith
    have hbr : 2*(m1+m2)*(1-p1) + m1*m2*(1-2*p1) < 0 := by
      nlinarith [mul_pos (sub_pos.mpr h2) (neg_pos.mpr h2SP), mul_pos h1 hP]
    have hE : 0 < p1^3*(m2-m1)*(2*(m1+m2)*(1-p1) + m1*m2*(1-2*p1)) := by
      have := mul_pos_of_neg_of_neg (a := m2 - m1)
        (b := 2*(m1+m2)*(1-p1) + m1*m2*(1-2*p1)) (by linarith) hbr
      have hp3 : (0:ℚ) < p1^3 := by positivity
      calc (0:ℚ) < p1^3 * ((m2-m1)*(2*(m1+m2)*(1-p1) + m1*m2*(1-2*p1))) :=
        mul_pos hp3 this
      _ = p1^3*(m2-m1)*(2*(m1+m2)*(1-p1) + m1*m2*(1-2*p1)) := by ring
    linarith [hiden, hE]

theorem n_equal_mde_le (PhiInv : ℚ → ℝ) {p1 m1 m2 alpha power : ℚ} {c : ℤ}
    (two_tailed : Bool)
    (hzp : 0 ≤ PhiInv power) (hza : 0 ≤ PhiInv (z_alpha_arg alpha c two_tailed))
    (h1 : 0 < p1) (h2 : p1 < 1)
    (hsign : (0 < m1 ∧ m1 < m2) ∨ (m2 < m1 ∧ m1 < 0 ∧ -1 < m2))
    (htr1 : treatment_rate p1 m1 < 1) (htr2 : treatment_rate p1 m2 < 1) :
    n_equal PhiInv p1 m2 alpha power two_tailed c
      ≤ n_equal PhiInv p1 m1 alpha power two_tailed c := by
  have hm1n : -1 < m1 := by rcases hsign with ⟨a, _⟩ | ⟨_, _, c'⟩ <;> [linarith; linarith]
  have hm2n : -1 < m2 := by
    rcases hsign with ⟨a, b⟩ | ⟨_, _, c'⟩ <;> [linarith; linarith]
  have hm1ne : m1 ≠ 0 := by
    rcases hsign with ⟨a, _⟩ | ⟨_, b, _⟩ <;> [exact ne_of_gt a; exact ne_of_lt b]
  have hm2ne : m2 ≠ 0 := by
    rcases hsign with ⟨a, b⟩ | ⟨b, c', _⟩ <;>
      [exact ne_of_gt (lt_trans a b); exact ne_of_lt (lt_trans b c')]
  have hnull1 : (0:ℚ) ≤ null_variance_term p1 m1 := null_variance_nonneg h1 h2 hm1n htr1
  have hnull2 : (0:ℚ) ≤ null_variance_term p1 m2 := null_variance_nonneg h1 h2 hm2n htr2
  have halt1 : (0:ℚ) ≤ alt_variance_term p1 m1 := alt_variance_nonneg h1 h2 hm1n htr1
  have halt2 : (0:ℚ) ≤ alt_variance_term p1 m2 := alt_variance_nonneg h1 h2 hm2n htr2
  have hkey_null := null_term_le h1 h2 hsign htr2
  have hkey_alt := alt_term_le h1 h2 hsign htr2
  have hd1 : (treatment_rate p1 m1 - p1) = p1 * m1 := by unfold treatment_rate; ring
  have hd2 : (treatment_rate p1 m2 - p1) = p1 * m2 := by unfold treatment_rate; ring
  unfold n_equal
  rw [hd1, hd2]
  set za := PhiInv (z_alpha_arg alpha c two_tailed) with hzadef
  set zw := PhiInv power with hzwdef
  set A1 := Real.sqrt (null_variance_term p1 m1 : ℝ) with hA1def
  set A2 := Real.sqrt (null_variance_term p1 m2 : ℝ) with hA2def
  set B1 := Real.sqrt (alt_variance_term p1 m1 : ℝ) with hB1def
  set B2 := Real.sqrt (alt_variance_term p1 m2 : ℝ) with hB2def
  set e1 := ((p1 * m1 : ℚ) : ℝ) with he1def
  set e2 := ((p1 * m2 : ℚ) : ℝ) with he2def
  have he1sq : (0:ℝ) < e1^2 := pow_two_pos_of_ne_zero
    (by rw [he1def]; exact_mod_cast mul_ne_zero (ne_of_gt h1) hm1ne)
  have he2sq : (0:ℝ) < e2^2 := pow_two_pos_of_ne_zero
    (by rw [he2def]; exact_mod_cast mul_ne_zero (ne_of_gt h1) hm2ne)
  rw [div_le_div_iff he2sq he1sq]
  have t1 : A2 * |e1| ≤ A1 * |e2| := by
    rw [hA1def, hA2def, he1def, he2def, ← Real.sqrt_sq_eq_abs ((p1 * m1 : ℚ) : ℝ),
      ← Real.sqrt_sq_eq_abs ((p1 * m2 : ℚ) : ℝ),
      ← Real.sqrt_mul (by exact_mod_cast hnull2) (((p1 * m1 : ℚ) : ℝ)^2),
      ← Real.sqrt_mul (by exact_mod_cast hnull1) (((p1 * m2 : ℚ) : ℝ)^2)]
    apply Real.sqrt_le_sqrt
    exact_mod_cast hkey_null
  have t2 : B2 * |e1| ≤ B1 * |e2| := by
    rw [hB1def, hB2def, he1def, he2def, ← Real.sqrt_sq_eq_abs ((p1 * m1 : ℚ) : ℝ),
      ← Real.sqrt_sq_eq_abs ((p1 * m2 : ℚ) : ℝ),
      ← Real.sqrt_mul (by exact_mod_cast halt2) (((p1 * m1 : ℚ) : ℝ)^2),
      ← Real.sqrt_mul (by exact_mod_cast halt1) (((p1 * m2 : ℚ) : ℝ)^2)]
    apply Real.sqrt_le_sqrt
    exact_mod_cast hkey_alt
  have hS2 : 0 ≤ za * A2 + zw * B2 :=
    add_nonneg (mul_nonneg hza (by rw [hA2def]; exact Real.sqrt_nonneg _))
      (mul_nonneg hzp (by rw [hB2def]; exact Real.sqrt_nonneg _))
  have key : (za * A2 + zw * B2) * |e1| ≤ (za * A1 + zw * B1) * |e2| := by
    have expand2 : (za * A2 + zw * B2) * |e1|
        = za * (A2 * |e1|) + zw * (B2 * |e1|) := by ring
    have expand1 : (za * A1 + zw * B1) * |e2|
        = za * (A1 * |e2|) + zw * (B1 * |e2|) := by ring
    rw [expand2, expand1]
    exact add_le_add (mul_le_mul_of_nonneg_left t1 hza) (mul_le_mul_of_nonneg_left t2 hzp)
  have h := mul_self_le_mul_self (mul_nonneg hS2 (abs_nonneg e1)) key
  have habs2 : (za * A2 + zw * B2) * |e1| * ((za * A2 + zw * B2) * |e1|)
      = (za * A2 + zw * B2)^2 * e1^2 := by
    rw [mul_mul_mul_comm, abs_mul_abs_self]; ring
  have habs1 : (za * A1 + zw * B1) * |e2| * ((za * A1 + zw * B1) * |e2|)
      = (za * A1 + zw * B1)^2 * e2^2 := by
    rw [mul_mul_mul_comm, abs_mul_abs_self]; ring
  rw [habs2, habs1] at h
  exact h


/-- Claim C7 (amended): for a fixed baseline rate and fixed design
parameters, with nonnegative critical values (`z_power ≥ 0`, true for the
standard normal quantile iff `power ≥ 1/2`, and `z_alpha ≥ 0`, automatic for
two-sided tests), `required_n` is non-increasing in `|relative_mde|` among
effect sizes of the same sign: if `0 < m1 < m2 < 1` or `-1 < m2 < m1 < 0`
(so `|m1| < |m2|`), both calls succeed and the `required_n` for `m2` is at
most the one for `m1`.  (Strict decrease fails because of rounding ties, and
monotonicity across opposite signs fails outright.) -/
theorem c7_mde_monotone (PhiInv : ℚ → ℝ) {p1 m1 m2 alpha power : ℚ} {c : ℤ}
    {split_ratio : ℚ} (two_tailed : Bool)
    (hzp : 0 ≤ PhiInv power) (hza : 0 ≤ PhiInv (z_alpha_arg alpha c two_tailed))
    (h1 : 0 < p1) (h2 : p1 < 1)
    (hsign : (0 < m1 ∧ m1 < m2 ∧ m2 < 1) ∨ (m2 < m1 ∧ m1 < 0 ∧ -1 < m2))
    (h5 : 0 < alpha) (h6 : alpha < 1) (h7 : 0 < power) (h8 : power < 1)
    (h9 : 1 ≤ c) (h10 : 0 < split_ratio) (h11 : split_ratio < 1)
    (htr1 : treatment_rate p1 m1 < 1) (htr2 : treatment_rate p1 m2 < 1) :
    calculate_sample_size_relative PhiInv p1 m1 alpha power two_tailed c split_ratio
      = .ok (requiredN PhiInv p1 m1 alpha power two_tailed c split_ratio)
    ∧ calculate_sample_size_relative PhiInv p1 m2 alpha power two_tailed c split_ratio
      = .ok (requiredN PhiInv p1 m2 alpha power two_tailed c split_ratio)
    ∧ requiredN PhiInv p1 m2 alpha power two_tailed c split_ratio
      ≤ requiredN PhiInv p1 m1 alpha power two_tailed c split_ratio := by
  have hsign' : (0 < m1 ∧ m1 < m2) ∨ (m2 < m1 ∧ m1 < 0 ∧ -1 < m2) := by
    rcases hsign with ⟨a, b, _⟩ | h' <;> [exact Or.inl ⟨a, b⟩; exact Or.inr h']
  have hm1n : -1 < m1 := by rcases hsign with ⟨a, _, _⟩ | ⟨_, _, c'⟩ <;> [linarith; linarith]
  have hm2n : -1 < m2 := by rcases hsign with ⟨a, b, _⟩ | ⟨_, _, c'⟩ <;> [linarith; linarith]
  have hm1lt : m1 < 1 := by rcases hsign with ⟨_, b, b'⟩ | ⟨_, b, _⟩ <;> [linarith; linarith]
  have hm2lt : m2 < 1 := by rcases hsign with ⟨_, _, b'⟩ | ⟨b, b', _⟩ <;> [linarith; linarith]
  have hm1ne : m1 ≠ 0 := by
    rcases hsign with ⟨a, _, _⟩ | ⟨_, b, _⟩ <;> [exact ne_of_gt a; exact ne_of_lt b]
  have hm2ne : m2 ≠ 0 := by
    rcases hsign with ⟨a, b, _⟩ | ⟨b, c', _⟩ <;>
      [exact ne_of_gt (lt_trans a b); exact ne_of_lt (lt_trans b c')]
  refine ⟨calculate_relative_ok PhiInv two_tailed h1 h2 hm1n hm1lt h5 h6 h7 h8 h9 h10 h11
      htr1 hm1ne,
    calculate_relative_ok PhiInv two_tailed h1 h2 hm2n hm2lt h5 h6 h7 h8 h9 h10 h11
      htr2 hm2ne, ?_⟩
  exact requiredN_le_of_n_equal_le PhiInv h10 h11
    (n_equal_mde_le PhiInv two_tailed hzp hza h1 h2 hsign' htr1 htr2)

theorem c7_witness :
    (0 ≤ phiInvStd (4/5) ∧ 0 ≤ phiInvStd (z_alpha_arg (1/20) 1 true)
      ∧ (0:ℚ) < 1/2 ∧ (1:ℚ)/2 < 1
      ∧ ((0:ℚ) < 1/5 ∧ (1:ℚ)/5 < 2/5 ∧ (2:ℚ)/5 < 1)
      ∧ (0:ℚ) < 1/20 ∧ (1:ℚ)/20 < 1 ∧ (0:ℚ) < 4/5 ∧ (4:ℚ)/5 < 1 ∧ (1:ℤ) ≤ 1
      ∧ (0:ℚ) < 1/2 ∧ (1:ℚ)/2 < 1
      ∧ treatment_rate (1/2) (1/5) < 1 ∧ treatment_rate (1/2) (2/5) < 1)
    ∧ requiredN phiInvStd (1/2) (2/5) (1/20) (4/5) true 1 (1/2)
      ≤ requiredN phiInvStd (1/2) (1/5) (1/20) (4/5) true 1 (1/2) := by
  have hzp : 0 ≤ phiInvStd (4/5) := by norm_num [phiInvStd]
  have hza : 0 ≤ phiInvStd (z_alpha_arg (1/20) 1 true) := by
    norm_num [phiInvStd, z_alpha_arg, adjusted_alpha]
  have htr1 : treatment_rate (1/2 : ℚ) (1/5) < 1 := by unfold treatment_rate; norm_num
  have htr2 : treatment_rate (1/2 : ℚ) (2/5) < 1 := by unfold treatment_rate; norm_num
  exact ⟨⟨hzp, hza, by norm_num, by norm_num, ⟨by norm_num, by norm_num, by norm_num⟩,
      by norm_num, by norm_num, by norm_num, by norm_num, le_refl 1, by norm_num,
      by norm_num, htr1, htr2⟩,
    (c7_mde_monotone phiInvStd true hzp hza (by norm_num) (by norm_num)
      (Or.inl ⟨by norm_num, by norm_num, by norm_num⟩) (by norm_num) (by norm_num)
      (by norm_num) (by norm_num) (le_refl 1) (by norm_num) (by norm_num)
      htr1 htr2).2.2⟩

end SampleSizeCalculator
